import Mathlib

/-!
# Place handlers of `controllers/places-controllers.js`

A shallow embedding of the five request handlers (`getPlaceById`,
`getPlacesByUserId`, `createPlace`, `updatePlace`, `deletePlace`) over an explicit
store state, followed by the properties proved about them.

* The two collections are finite maps keyed by document id.
* Every awaited database call can reject; which calls reject during one request is
  given by an `Env` value, so a handler is a pure function
  `Env → Request → Store → Outcome × Store`.
* The awaited steps of a `try` block run against the committed store and hand on the
  store they leave, also when a later step rejects; the handler returns that store.
* A write issued with a session is buffered while a transaction is active on the
  session and reaches the committed store when `commitTransaction` resolves; issued
  with no active transaction (or with no session) it is applied at once.
-/

namespace Places

/-- Document identifiers (ObjectIds in the database). -/
abbrev Id := Nat

/-- Coordinates of a place; the handlers only carry them around. -/
structure Location where
  lat : Int
  lng : Int
deriving DecidableEq, Repr

/-- Modelled from the spec: the schema of `models/place.js`, which the controller
requires but which is not among the available sources (section 3: title, description,
address, location, image reference and the identifier of the creating user). These
are the stored fields of a place. -/
structure PlaceFields where
  title : String
  description : String
  image : String
  address : String
  location : Location
  creator : Id
deriving DecidableEq, Repr

/-- A place document: the stored fields together with the identifier it is keyed by. -/
structure Place extends PlaceFields where
  id : Id
deriving DecidableEq, Repr

/-- Modelled from the spec: the schema of `models/user.js`, which the controller
requires but which is not among the available sources (section 3: an ordered
collection of place references). Fields of a user the handlers never touch are left
out. -/
structure UserFields where
  places : List Id
deriving DecidableEq, Repr

/-- A user document. -/
structure User extends UserFields where
  id : Id
deriving DecidableEq, Repr

/-- A user document after `.populate('places')`. -/
structure UserWithPlaces where
  id : Id
  places : List Place
deriving DecidableEq, Repr

/-- A place document after `.populate('creator')`; the creator is `none` when no
user has the referenced id. -/
structure PlaceWithCreator where
  place : Place
  creator : Option User
deriving DecidableEq, Repr

/-- The committed state of the database: both collections, keyed by id. -/
structure Store where
  places : Id → Option PlaceFields
  users : Id → Option UserFields

/-- What a `catch (err)` block can receive. -/
inductive Failure where
  /-- a rejection coming from the database layer, with its detail -/
  | store (detail : String)
  /-- inserting a document whose id is already present in the collection -/
  | duplicateKey (id : Id)
  /-- reading or writing a property of `null` -/
  | typeError
  /-- committing on a session that has no active transaction -/
  | noTransaction
deriving DecidableEq, Repr

/-- First argument of `new HttpError(..)`: a fixed text or the caught failure. -/
inductive Message where
  | text (s : String)
  | cause (f : Failure)
deriving DecidableEq, Repr

/-- Modelled from the spec: the class of `models/http-error.js`, which the controller
requires but which is not among the available sources (section 4.1: a message and a
numeric status code). -/
structure HttpError where
  message : Message
  code : Nat
deriving DecidableEq, Repr

/-- Result of `place.toObject(\x7b getters: true \x7d)`: the stored document with the
virtual `id` getter materialised. -/
structure PlaceObject where
  id : Id
  doc : Place
deriving DecidableEq, Repr

/-- Serialisation with getters. -/
def Place.toObject (p : Place) : PlaceObject := ⟨p.id, p⟩

/-- JSON payloads the handlers send. -/
inductive Body where
  /-- `\x7b place: place.toObject(..) \x7d` -/
  | place (p : PlaceObject)
  /-- `\x7b place: createdPlace \x7d`, the document itself -/
  | rawPlace (p : Place)
  /-- `\x7b places: [..] \x7d` -/
  | places (ps : List PlaceObject)
  /-- `\x7b message: .. \x7d` -/
  | message (s : String)
deriving DecidableEq, Repr

/-- How one invocation of a handler ends. -/
inductive Outcome where
  /-- `res.status(status).json(body)` (`res.json` alone sends 200) -/
  | responded (status : Nat) (body : Body)
  /-- `return next(error)` -/
  | forwarded (error : HttpError)
  /-- `throw error` inside the async handler: neither `res` nor `next` is used -/
  | threw (error : HttpError)
  /-- a failure escaping the handler outside every `try`: neither `res` nor `next` is used -/
  | crashed (f : Failure)
deriving DecidableEq, Repr

/-- `req.params`. -/
structure Params where
  pid : Id
  uid : Id
deriving DecidableEq, Repr

/-- `req.body`. -/
structure ReqBody where
  title : String
  description : String
  address : String
  location : Location
  creator : Id
deriving DecidableEq, Repr

/-- An incoming request, with the error list `validationResult(req)` reads. -/
structure Request where
  params : Params
  body : ReqBody
  validationErrors : List String
deriving DecidableEq, Repr

/-- The environment of one request: the id generated for a document built with
`new Place(..)`, and for every awaited database call whether it rejects (with which
detail). -/
structure Env where
  newId : Id
  findFails : Option String
  sessionFails : Option String
  placeWriteFails : Option String
  userSaveFails : Option String
  commitFails : Option String
deriving DecidableEq, Repr

/-- Point update of a keyed collection. -/
def upd {α : Type} (m : Id → Option α) (k : Id) (v : Option α) : Id → Option α :=
  fun i => if i = k then v else m i

/-- An awaited call that rejects when the environment says so. -/
def attempt {α : Type} (fault : Option String) (a : α) : Except Failure α :=
  match fault with
  | some detail => .error (.store detail)
  | none => .ok a

/-- The document stored under `pid`, if any. -/
def lookupPlace (s : Store) (pid : Id) : Option Place :=
  (s.places pid).map fun f => { toPlaceFields := f, id := pid }

/-- The document stored under `uid`, if any. -/
def lookupUser (s : Store) (uid : Id) : Option User :=
  (s.users uid).map fun f => { toUserFields := f, id := uid }

/-- Resolution of a list of place references: one document per reference that
resolves, in the order of the references; references to missing places are dropped. -/
def populatePlaces (s : Store) (ids : List Id) : List Place :=
  ids.filterMap (lookupPlace s)

/-- `await Place.findById(placeId)`. -/
def Place.findById (env : Env) (s : Store) (placeId : Id) : Except Failure (Option Place) :=
  attempt env.findFails (lookupPlace s placeId)

/-- `await User.findById(userId)`. -/
def User.findById (env : Env) (s : Store) (userId : Id) : Except Failure (Option User) :=
  attempt env.findFails (lookupUser s userId)

/-- `await User.findById(userId).populate('places')`. -/
def User.findByIdPopulatePlaces (env : Env) (s : Store) (userId : Id) :
    Except Failure (Option UserWithPlaces) :=
  attempt env.findFails
    ((lookupUser s userId).map fun u => { id := u.id, places := populatePlaces s u.places })

/-- `await Place.findById(placeId).populate('creator')`. -/
def Place.findByIdPopulateCreator (env : Env) (s : Store) (placeId : Id) :
    Except Failure (Option PlaceWithCreator) :=
  attempt env.findFails
    ((lookupPlace s placeId).map fun p => { place := p, creator := lookupUser s p.creator })

/-- A write on one of the two collections. -/
inductive Write where
  | putPlace (p : Place)
  | removePlace (pid : Id)
  | putUser (u : User)
deriving DecidableEq, Repr

/-- Effect of one write on the store. -/
def Write.apply (s : Store) : Write → Store
  | .putPlace p => { s with places := upd s.places p.id (some p.toPlaceFields) }
  | .removePlace pid => { s with places := upd s.places pid none }
  | .putUser u => { s with users := upd s.users u.id (some u.toUserFields) }

/-- A database step of a handler. Run against the committed store it resolves or
rejects, and in both cases it leaves a committed store behind: what a step has
written before a later step rejects stays written. -/
def Db (α : Type) : Type := Store → Except Failure α × Store

/-- A step that resolves at once, without touching the store. -/
def Db.pure {α : Type} (a : α) : Db α := fun s => (.ok a, s)

/-- A step that rejects at once, without touching the store. -/
def Db.reject {α : Type} (f : Failure) : Db α := fun s => (.error f, s)

/-- Sequencing of awaited steps inside a `try` block: the first rejection ends the
block, and the store is the one left by the steps run so far. -/
def Db.bind {α β : Type} (m : Db α) (f : α → Db β) : Db β := fun s =>
  match m s with
  | (.ok a, s1) => f a s1
  | (.error e, s1) => (.error e, s1)

instance Db.instMonad : Monad Db where
  pure := Db.pure
  bind := Db.bind

/-- A client session: whether a transaction is active on it, and the writes issued in
that transaction so far. -/
structure Session where
  inTransaction : Bool
  pending : List Write
deriving DecidableEq, Repr

/-- The store as read through the session: the committed store with the writes of
the running transaction on top. -/
def Session.view (s : Store) (sess : Session) : Store :=
  sess.pending.foldl Write.apply s

/-- A write issued with the session option: buffered when a transaction is active on
the session, applied to the committed store at once when none is. -/
def Session.issue (sess : Session) (w : Write) : Db Session := fun s =>
  if sess.inTransaction then
    (.ok { sess with pending := sess.pending ++ [w] }, s)
  else
    (.ok sess, w.apply s)

/-- `await mongoose.startSession()`: a session with no active transaction. -/
def startSession (env : Env) : Db Session := fun s =>
  (attempt env.sessionFails { inTransaction := false, pending := [] }, s)

/-- `sess.startTransaction()`. -/
def Session.startTransaction (sess : Session) : Session :=
  { sess with inTransaction := true }

/-- `await createdPlace.save(\x7b session: sess \x7d)` for a new document: an insert,
rejected when the id is already taken. -/
def Place.saveNew (env : Env) (sess : Session) (p : Place) : Db Session := fun s =>
  match env.placeWriteFails with
  | some detail => (.error (.store detail), s)
  | none =>
    if ((sess.view s).places p.id).isSome then
      (.error (.duplicateKey p.id), s)
    else
      sess.issue (.putPlace p) s

/-- `await place.remove(\x7b session: sess \x7d)`. -/
def Place.remove (env : Env) (sess : Session) (p : Place) : Db Session := fun s =>
  match env.placeWriteFails with
  | some detail => (.error (.store detail), s)
  | none => sess.issue (.removePlace p.id) s

/-- `await user.save(\x7b session: sess \x7d)`. -/
def User.save (env : Env) (sess : Session) (u : User) : Db Session := fun s =>
  match env.userSaveFails with
  | some detail => (.error (.store detail), s)
  | none => sess.issue (.putUser u) s

/-- `await sess.commitTransaction()`: rejected when no transaction is active on the
session; otherwise all buffered writes reach the committed store, or, when the commit
rejects, none of them does. -/
def Session.commitTransaction (env : Env) (sess : Session) : Db Unit := fun s =>
  if sess.inTransaction then
    match env.commitFails with
    | some detail => (.error (.store detail), s)
    | none => (.ok (), sess.pending.foldl Write.apply s)
  else
    (.error .noTransaction, s)

/-- `await place.save()` with no session (used by `updatePlace`): the document
replaces at once the one stored under its id. -/
def Place.save (env : Env) (p : Place) : Db Unit := fun s =>
  match env.placeWriteFails with
  | some detail => (.error (.store detail), s)
  | none => (.ok (), (Write.putPlace p).apply s)

/-- `array.push(doc)` on an array of references. -/
def push (refs : List Id) (p : Place) : List Id := refs ++ [p.id]

/-- `array.pull(doc)` on an array of references: every element equal to the
document's id is removed. -/
def pull (refs : List Id) (p : Place) : List Id := refs.filter (fun i => i != p.id)

/-- The image every created place gets. -/
def placeholderImage : String :=
  "https://i.picsum.photos/id/866/200/300.jpg?hmac=rcadCENKh4rD6MAp6V_ma-AyWv641M4iiOpe1RyFHeI"

/-- Lines 7-26. -/
def getPlaceById (env : Env) (req : Request) (s : Store) : Outcome × Store :=
  let placeId := req.params.pid
  match Place.findById env s placeId with
  | .error err => (.forwarded ⟨.cause err, 500⟩, s)
  | .ok none =>
    (.forwarded ⟨.text "Could not find a place for the provided id.", 404⟩, s)
  | .ok (some place) => (.responded 200 (.place place.toObject), s)

/-- Lines 28-46. -/
def getPlacesByUserId (env : Env) (req : Request) (s : Store) : Outcome × Store :=
  let userId := req.params.uid
  match User.findByIdPopulatePlaces env s userId with
  | .error err => (.forwarded ⟨.cause err, 500⟩, s)
  | .ok none =>
    (.forwarded ⟨.text "Could not find a places for the provided user id.", 404⟩, s)
  | .ok (some userWithPlaces) =>
    if userWithPlaces.places.length = 0 then
      (.forwarded ⟨.text "Could not find a places for the provided user id.", 404⟩, s)
    else
      (.responded 200 (.places (userWithPlaces.places.map Place.toObject)), s)

/-- Lines 84-89: the body of the `try` block of `createPlace`. -/
def createPlaceTransaction (env : Env) (createdPlace : Place) (user : User) : Db Unit := do
  let sess ← startSession env
  let sess := sess.startTransaction
  let sess ← createdPlace.saveNew env sess
  let user : User := { user with places := push user.places createdPlace }
  let sess ← user.save env sess
  sess.commitTransaction env

/-- Lines 48-96. -/
def createPlace (env : Env) (req : Request) (s : Store) : Outcome × Store :=
  if !req.validationErrors.isEmpty then
    (.threw ⟨.text "Invalid inputs passed, please check your data.", 422⟩, s)
  else
    let createdPlace : Place :=
      { id := env.newId
        title := req.body.title
        description := req.body.description
        image := placeholderImage
        address := req.body.address
        location := req.body.location
        creator := req.body.creator }
    match User.findById env s req.body.creator with
    | .error err => (.forwarded ⟨.cause err, 500⟩, s)
    | .ok none => (.forwarded ⟨.text "Could not find user for provided id.", 404⟩, s)
    | .ok (some user) =>
      match createPlaceTransaction env createdPlace user s with
      | (.error err, s') => (.forwarded ⟨.cause err, 500⟩, s')
      | (.ok _, s') => (.responded 201 (.rawPlace createdPlace), s')

/-- Lines 98-130. -/
def updatePlace (env : Env) (req : Request) (s : Store) : Outcome × Store :=
  if !req.validationErrors.isEmpty then
    (.forwarded ⟨.text "Invalid inputs passed, please check your data.", 422⟩, s)
  else
    let placeId := req.params.pid
    match Place.findById env s placeId with
    | .error err => (.forwarded ⟨.cause err, 500⟩, s)
    | .ok none => (.crashed .typeError, s)
    | .ok (some place) =>
      let place : Place :=
        { place with title := req.body.title, description := req.body.description }
      match place.save env s with
      | (.error err, s') => (.forwarded ⟨.cause err, 500⟩, s')
      | (.ok _, s') => (.responded 200 (.place place.toObject), s')

/-- Lines 149-154: the body of the `try` block of `deletePlace`. -/
def deletePlaceTransaction (env : Env) (place : PlaceWithCreator) : Db Unit := do
  let sess ← startSession env
  let sess := sess.startTransaction
  let sess ← place.place.remove env sess
  match place.creator with
  | none => Db.reject .typeError
  | some creator =>
    let creator : User := { creator with places := pull creator.places place.place }
    let sess ← creator.save env sess
    sess.commitTransaction env

/-- Lines 132-161. -/
def deletePlace (env : Env) (req : Request) (s : Store) : Outcome × Store :=
  let placeId := req.params.pid
  match Place.findByIdPopulateCreator env s placeId with
  | .error err => (.forwarded ⟨.cause err, 500⟩, s)
  | .ok none => (.forwarded ⟨.text "Could not find place for this id.", 404⟩, s)
  | .ok (some place) =>
    match deletePlaceTransaction env place s with
    | (.error err, s') => (.forwarded ⟨.cause err, 500⟩, s')
    | (.ok _, s') => (.responded 200 (.message "Deleted place."), s')

/-- The five exported handlers. -/
inductive Handler where
  | getPlaceById
  | getPlacesByUserId
  | createPlace
  | updatePlace
  | deletePlace
deriving DecidableEq, Repr

/-- Dispatch of a request to a handler. -/
def Handler.run : Handler → Env → Request → Store → Outcome × Store
  | .getPlaceById => Places.getPlaceById
  | .getPlacesByUserId => Places.getPlacesByUserId
  | .createPlace => Places.createPlace
  | .updatePlace => Places.updatePlace
  | .deletePlace => Places.deletePlace

/-- The request passed validation. -/
def Request.Valid (req : Request) : Prop := req.validationErrors = []

/-- The place/user consistency predicate: for every user and every place, the user
is the place's creator exactly when the place's id occurs in the user's collection,
and then it occurs exactly once. -/
def Consistent (s : Store) : Prop :=
  ∀ (uid : Id) (u : UserFields) (pid : Id) (p : PlaceFields),
    s.users uid = some u → s.places pid = some p →
      (p.creator = uid ↔ pid ∈ u.places) ∧ (pid ∈ u.places → u.places.count pid = 1)

/-- An id that occurs nowhere in the store: it keys no place and no user's
collection refers to it. -/
def Fresh (s : Store) (i : Id) : Prop :=
  s.places i = none ∧ ∀ (uid : Id) (u : UserFields), s.users uid = some u → i ∉ u.places

/-- Some awaited call of the transactional sequence rejects. -/
def Env.StepFails (env : Env) : Prop :=
  env.sessionFails.isSome ∨ env.placeWriteFails.isSome ∨
    env.userSaveFails.isSome ∨ env.commitFails.isSome

/-- The transactional sequence of `createPlace` fails at some step: an awaited call
rejects, or the insert is refused because the generated id is already taken. -/
def CreateSequenceFails (env : Env) (s : Store) : Prop :=
  env.StepFails ∨ (s.places env.newId).isSome

/-- The transactional sequence of `deletePlace` for a place with fields `p` fails at
some step: an awaited call rejects, or the populated creator is `null` when its
collection is read. -/
def DeleteSequenceFails (env : Env) (s : Store) (p : PlaceFields) : Prop :=
  env.StepFails ∨ s.users p.creator = none

/-- No database call rejects. -/
def Env.Quiet (env : Env) : Prop :=
  env.findFails = none ∧ env.sessionFails = none ∧ env.placeWriteFails = none ∧
    env.userSaveFails = none ∧ env.commitFails = none

/-- The document `createPlace` builds from a request. -/
def createdPlaceOf (env : Env) (req : Request) : Place :=
  { id := env.newId
    title := req.body.title
    description := req.body.description
    image := placeholderImage
    address := req.body.address
    location := req.body.location
    creator := req.body.creator }

/-- An environment in which nothing rejects and the next generated id is `i`. -/
def Env.quiet (i : Id) : Env :=
  { newId := i, findFails := none, sessionFails := none, placeWriteFails := none,
    userSaveFails := none, commitFails := none }

/-- An environment in which saving the user rejects. -/
def Env.userSaveRejects (i : Id) : Env :=
  { Env.quiet i with userSaveFails := some "write conflict" }

/-- The empty collection. -/
def noDocs {α : Type} : Id → Option α := fun _ => none

/-- A sample place, owned by user 1. -/
def demoFields : PlaceFields :=
  { title := "A", description := "first", image := placeholderImage, address := "1 Main St",
    location := ⟨40, -73⟩, creator := 1 }

/-- A sample store: user 1 owns place 10, user 2 owns nothing. -/
def demoStore : Store :=
  { places := upd noDocs 10 (some demoFields)
    users := upd (upd noDocs 2 (some ⟨[]⟩)) 1 (some ⟨[10]⟩) }

/-- A sample request: valid, about place 10 and user 1. -/
def demoRequest : Request :=
  { params := { pid := 10, uid := 1 }
    body := { title := "B", description := "second", address := "2 Side St",
              location := ⟨41, -74⟩, creator := 1 }
    validationErrors := [] }

end Places

namespace Places

/-! ## Basic facts about the store operations -/

@[simp] theorem upd_same {α : Type} (m : Id → Option α) (k : Id) (v : Option α) :
    upd m k v k = v := by
  simp [upd]

theorem upd_other {α : Type} (m : Id → Option α) (k i : Id) (v : Option α) (h : i ≠ k) :
    upd m k v i = m i := by
  simp [upd, h]

@[simp] theorem attempt_none {α : Type} (a : α) : attempt none a = .ok a := rfl

@[simp] theorem attempt_some {α : Type} (d : String) (a : α) :
    attempt (some d) a = .error (.store d) := rfl

theorem lookupPlace_none {s : Store} {pid : Id} (h : s.places pid = none) :
    lookupPlace s pid = none := by
  simp [lookupPlace, h]

theorem lookupPlace_some {s : Store} {pid : Id} {p : PlaceFields} (h : s.places pid = some p) :
    lookupPlace s pid = some { toPlaceFields := p, id := pid } := by
  simp [lookupPlace, h]

theorem lookupUser_none {s : Store} {uid : Id} (h : s.users uid = none) :
    lookupUser s uid = none := by
  simp [lookupUser, h]

theorem lookupUser_some {s : Store} {uid : Id} {u : UserFields} (h : s.users uid = some u) :
    lookupUser s uid = some { toUserFields := u, id := uid } := by
  simp [lookupUser, h]

/-! ## Validation failures and missing documents -/

/-- C2: for a valid request whose creator is the id of no user, and a user lookup that
does not reject, `createPlace` forwards the 404 error with message
"Could not find user for provided id." (so it sends no response) and returns the
store it was given: no place is persisted and no user is touched. -/
theorem createPlace_unknown_creator (env : Env) (req : Request) (s : Store)
    (hvalid : req.Valid) (hfind : env.findFails = none)
    (hnone : s.users req.body.creator = none) :
    createPlace env req s =
      (.forwarded ⟨.text "Could not find user for provided id.", 404⟩, s) := by
  have hv : req.validationErrors = [] := hvalid
  simp [createPlace, hv, User.findById, hfind, lookupUser_none hnone]

/-- Witness for C2: creator 7 is not a user of the sample store. -/
theorem createPlace_unknown_creator_witness :
    createPlace (Env.quiet 11) { demoRequest with body := { demoRequest.body with creator := 7 } }
        demoStore =
      (.forwarded ⟨.text "Could not find user for provided id.", 404⟩, demoStore) :=
  createPlace_unknown_creator (Env.quiet 11)
    { demoRequest with body := { demoRequest.body with creator := 7 } } demoStore rfl rfl rfl

/-- C10: when the validation error list is not empty, whatever the database would
do, `createPlace` throws and `updatePlace` forwards through `next` the 422 error with
message "Invalid inputs passed, please check your data."; neither sends a response
and both return the store unchanged. -/
theorem invalid_inputs_rejected (env : Env) (req : Request) (s : Store)
    (hinvalid : req.validationErrors ≠ []) :
    createPlace env req s =
        (.threw ⟨.text "Invalid inputs passed, please check your data.", 422⟩, s) ∧
      updatePlace env req s =
        (.forwarded ⟨.text "Invalid inputs passed, please check your data.", 422⟩, s) := by
  simp [createPlace, updatePlace, hinvalid]

/-- Witness for C10: a request carrying one validation error. -/
theorem invalid_inputs_rejected_witness :
    createPlace (Env.quiet 11) { demoRequest with validationErrors := ["title is empty"] }
          demoStore =
        (.threw ⟨.text "Invalid inputs passed, please check your data.", 422⟩, demoStore) ∧
      updatePlace (Env.quiet 11) { demoRequest with validationErrors := ["title is empty"] }
          demoStore =
        (.forwarded ⟨.text "Invalid inputs passed, please check your data.", 422⟩, demoStore) :=
  invalid_inputs_rejected (Env.quiet 11)
    { demoRequest with validationErrors := ["title is empty"] } demoStore (by decide)

/-- C9: for a valid update request whose place id keys no place, and a lookup that
does not reject, `updatePlace` fails with a type error outside every `try` block: it
sends no response, forwards no error through `next` (no 404, 422 or 500), and returns
the store unchanged. -/
theorem updatePlace_missing_place (env : Env) (req : Request) (s : Store)
    (hvalid : req.Valid) (hfind : env.findFails = none)
    (hnone : s.places req.params.pid = none) :
    updatePlace env req s = (.crashed .typeError, s) ∧
      (∀ e, (updatePlace env req s).1 ≠ .forwarded e) ∧
      (∀ status body, (updatePlace env req s).1 ≠ .responded status body) := by
  have hv : req.validationErrors = [] := hvalid
  have h : updatePlace env req s = (.crashed .typeError, s) := by
    simp [updatePlace, hv, Place.findById, hfind, lookupPlace_none hnone]
  simp [h]

/-- Witness for C9: place 99 is not in the sample store. -/
theorem updatePlace_missing_place_witness :
    updatePlace (Env.quiet 11) { demoRequest with params := { pid := 99, uid := 1 } }
        demoStore = (.crashed .typeError, demoStore) :=
  (updatePlace_missing_place (Env.quiet 11)
    { demoRequest with params := { pid := 99, uid := 1 } } demoStore rfl rfl rfl).1

/-! ## Reading handlers -/

theorem getPlacesByUserId_eq (env : Env) (req : Request) (s : Store)
    (hfind : env.findFails = none) :
    getPlacesByUserId env req s =
      match s.users req.params.uid with
      | none =>
        (.forwarded ⟨.text "Could not find a places for the provided user id.", 404⟩, s)
      | some u =>
        if populatePlaces s u.places = [] then
          (.forwarded ⟨.text "Could not find a places for the provided user id.", 404⟩, s)
        else
          (.responded 200 (.places ((populatePlaces s u.places).map Place.toObject)), s) := by
  cases hu : s.users req.params.uid with
  | none => simp [getPlacesByUserId, User.findByIdPopulatePlaces, hfind, lookupUser_none hu]
  | some u =>
    simp [getPlacesByUserId, User.findByIdPopulatePlaces, hfind, lookupUser_some hu]

theorem populatePlaces_map_id (s : Store) (ids : List Id) :
    (populatePlaces s ids).map Place.id = ids.filter (fun i => (s.places i).isSome) := by
  induction ids with
  | nil => rfl
  | cons i rest ih =>
    simp only [populatePlaces] at ih ⊢
    cases hi : s.places i with
    | none => simp [List.filterMap_cons, lookupPlace, hi, ih]
    | some f => simp [List.filterMap_cons, lookupPlace, hi, ih]

/-- C8: when the lookup does not reject, `getPlacesByUserId` returns the store
unchanged; it forwards the 404 error with message
"Could not find a places for the provided user id." exactly when no user has the id
or the resolved place collection of the user is empty; otherwise it responds 200 with
the resolved places, one serialised entry per element and in the same order; and it
never responds with an empty list. The resolved collection holds, in the order of
the stored references, the document of every reference that resolves. -/
theorem getPlacesByUserId_contract (env : Env) (req : Request) (s : Store)
    (hfind : env.findFails = none) :
    (getPlacesByUserId env req s).2 = s ∧
      ((getPlacesByUserId env req s).1 =
          .forwarded ⟨.text "Could not find a places for the provided user id.", 404⟩ ↔
        (s.users req.params.uid = none ∨
          ∃ u, s.users req.params.uid = some u ∧ populatePlaces s u.places = [])) ∧
      (∀ u, s.users req.params.uid = some u → populatePlaces s u.places ≠ [] →
        (getPlacesByUserId env req s).1 =
            .responded 200 (.places ((populatePlaces s u.places).map Place.toObject)) ∧
          ((populatePlaces s u.places).map Place.toObject).length =
            (populatePlaces s u.places).length ∧
          ((populatePlaces s u.places).map Place.toObject).map PlaceObject.id =
            u.places.filter (fun i => (s.places i).isSome)) ∧
      (∀ status, (getPlacesByUserId env req s).1 ≠ .responded status (.places [])) := by
  have hids : ∀ u : UserFields,
      ((populatePlaces s u.places).map Place.toObject).map PlaceObject.id =
        u.places.filter (fun i => (s.places i).isSome) := by
    intro u
    rw [← populatePlaces_map_id, List.map_map]
    rfl
  rw [getPlacesByUserId_eq env req s hfind]
  cases hu : s.users req.params.uid with
  | none => simp
  | some u =>
    by_cases hp : populatePlaces s u.places = []
    · simp [hp]
    · simp only [hp, if_false, Option.some.injEq, false_or, reduceCtorEq, exists_eq_left',
        List.length_map, true_and, false_iff, not_false_eq_true, ne_eq, and_true]
      refine ⟨?_, ?_⟩
      · intro u1 hu1 _
        subst hu1
        exact ⟨rfl, hids _⟩
      · intro status
        simp [hp]

/-- Witness for C8: user 1 of the sample store owns place 10, user 2 owns nothing. -/
theorem getPlacesByUserId_contract_witness :
    (getPlacesByUserId (Env.quiet 11) demoRequest demoStore).1 =
        .responded 200 (.places [⟨10, { toPlaceFields := demoFields, id := 10 }⟩]) ∧
      (getPlacesByUserId (Env.quiet 11) { demoRequest with params := { pid := 10, uid := 2 } }
          demoStore).1 =
        .forwarded ⟨.text "Could not find a places for the provided user id.", 404⟩ :=
  ⟨((getPlacesByUserId_contract (Env.quiet 11) demoRequest demoStore rfl).2.2.1
      ⟨[10]⟩ rfl (by decide)).1,
    (getPlacesByUserId_contract (Env.quiet 11)
      { demoRequest with params := { pid := 10, uid := 2 } } demoStore rfl).2.1.2
      (Or.inr ⟨⟨[]⟩, rfl, rfl⟩)⟩

/-! ## The two transactional sequences -/

/-- The sequence of `createPlace` either fails at some step and leaves the committed
store as it found it, or resolves with both writes committed. -/
theorem createPlaceTransaction_cases (env : Env) (s : Store) (p : Place) (u : User) :
    ((env.StepFails ∨ (s.places p.id).isSome) ∧
        ∃ f, createPlaceTransaction env p u s = (.error f, s)) ∨
      (env.sessionFails = none ∧ env.placeWriteFails = none ∧ env.userSaveFails = none ∧
        env.commitFails = none ∧ s.places p.id = none ∧
        createPlaceTransaction env p u s =
          (.ok (), { places := upd s.places p.id (some p.toPlaceFields)
                     users := upd s.users u.id (some ⟨u.places ++ [p.id]⟩) })) := by
  obtain ⟨newId, ff, sf, pf, uf, cf⟩ := env
  cases sf <;> cases pf <;> cases uf <;> cases cf <;> cases hp : s.places p.id <;>
    simp [createPlaceTransaction, startSession, Session.startTransaction, Place.saveNew,
      User.save, Session.commitTransaction, Session.issue, Session.view, Write.apply, push,
      hp, bind, Db.bind, Env.StepFails]

/-- The sequence of `deletePlace` either fails at some step and leaves the committed
store as it found it, or resolves with both writes committed. -/
theorem deletePlaceTransaction_cases (env : Env) (s : Store) (p : PlaceWithCreator) :
    ((env.StepFails ∨ p.creator = none) ∧
        ∃ f, deletePlaceTransaction env p s = (.error f, s)) ∨
      (env.sessionFails = none ∧ env.placeWriteFails = none ∧ env.userSaveFails = none ∧
        env.commitFails = none ∧
        ∃ c, p.creator = some c ∧
          deletePlaceTransaction env p s =
            (.ok (), { places := upd s.places p.place.id none
                       users := upd s.users c.id
                         (some ⟨c.places.filter (fun i => i != p.place.id)⟩) })) := by
  obtain ⟨newId, ff, sf, pf, uf, cf⟩ := env
  obtain ⟨pl, c⟩ := p
  cases sf <;> cases pf <;> cases uf <;> cases cf <;> cases c <;>
    simp [deletePlaceTransaction, startSession, Session.startTransaction, Place.remove,
      User.save, Session.commitTransaction, Session.issue, Session.view, Write.apply, pull,
      bind, Db.bind, Db.reject, Env.StepFails]

/-- `createPlace` once validation passed and the creator was found. -/
theorem createPlace_eq_of_found (env : Env) (req : Request) (s : Store) (u : UserFields)
    (hvalid : req.Valid) (hfind : env.findFails = none)
    (hu : s.users req.body.creator = some u) :
    createPlace env req s =
      match createPlaceTransaction env (createdPlaceOf env req)
          { toUserFields := u, id := req.body.creator } s with
      | (.error err, s') => (.forwarded ⟨.cause err, 500⟩, s')
      | (.ok _, s') => (.responded 201 (.rawPlace (createdPlaceOf env req)), s') := by
  have hv : req.validationErrors = [] := hvalid
  simp [createPlace, hv, User.findById, hfind, lookupUser_some hu, createdPlaceOf]

/-- `deletePlace` once the place was found. -/
theorem deletePlace_eq_of_found (env : Env) (req : Request) (s : Store) (p : PlaceFields)
    (hfind : env.findFails = none) (hp : s.places req.params.pid = some p) :
    deletePlace env req s =
      match deletePlaceTransaction env
          { place := { toPlaceFields := p, id := req.params.pid }
            creator := lookupUser s p.creator } s with
      | (.error err, s') => (.forwarded ⟨.cause err, 500⟩, s')
      | (.ok _, s') => (.responded 200 (.message "Deleted place."), s') := by
  simp [deletePlace, Place.findByIdPopulateCreator, hfind, lookupPlace_some hp]

/-- Every run of `createPlace` either leaves the store as it was and does not respond,
or responds 201 with the created document after committing both writes. -/
theorem createPlace_cases (env : Env) (req : Request) (s : Store) :
    ((createPlace env req s).2 = s ∧ ∀ status body,
        (createPlace env req s).1 ≠ .responded status body) ∨
      ∃ u, req.Valid ∧ env.findFails = none ∧ s.users req.body.creator = some u ∧
        s.places env.newId = none ∧
        createPlace env req s =
          (.responded 201 (.rawPlace (createdPlaceOf env req)),
            { places := upd s.places env.newId (some (createdPlaceOf env req).toPlaceFields)
              users := upd s.users req.body.creator (some ⟨u.places ++ [env.newId]⟩) }) := by
  by_cases hvalid : req.validationErrors = []
  · cases hfind : env.findFails with
    | some d => left; simp [createPlace, hvalid, User.findById, hfind]
    | none =>
      cases hu : s.users req.body.creator with
      | none =>
        left; simp [createPlace, hvalid, User.findById, hfind, lookupUser_none hu]
      | some u =>
        rw [createPlace_eq_of_found env req s u hvalid hfind hu]
        rcases createPlaceTransaction_cases env s (createdPlaceOf env req)
          { toUserFields := u, id := req.body.creator } with
          ⟨-, f, hf⟩ | ⟨-, -, -, -, hnew, hs⟩
        · left; simp [hf]
        · right
          refine ⟨u, hvalid, rfl, rfl, hnew, ?_⟩
          rw [hs]
          rfl
  · left; simp [createPlace, hvalid]

/-- Every run of `deletePlace` either leaves the store as it was and forwards an
error, or responds 200 "Deleted place." after committing both writes. -/
theorem deletePlace_cases (env : Env) (req : Request) (s : Store) :
    ((deletePlace env req s).2 = s ∧ ∃ e, (deletePlace env req s).1 = .forwarded e) ∨
      ∃ p u, env.findFails = none ∧ s.places req.params.pid = some p ∧
        s.users p.creator = some u ∧
        deletePlace env req s =
          (.responded 200 (.message "Deleted place."),
            { places := upd s.places req.params.pid none
              users := upd s.users p.creator
                (some ⟨u.places.filter (fun i => i != req.params.pid)⟩) }) := by
  cases hfind : env.findFails with
  | some d => left; simp [deletePlace, Place.findByIdPopulateCreator, hfind]
  | none =>
    cases hp : s.places req.params.pid with
    | none =>
      left; simp [deletePlace, Place.findByIdPopulateCreator, hfind, lookupPlace_none hp]
    | some p =>
      rw [deletePlace_eq_of_found env req s p hfind hp]
      rcases deletePlaceTransaction_cases env s
        { place := { toPlaceFields := p, id := req.params.pid }
          creator := lookupUser s p.creator } with
        ⟨-, f, hf⟩ | ⟨-, -, -, -, c, hc, hs⟩
      · left; simp [hf]
      · right
        cases hu : s.users p.creator with
        | none => simp [lookupUser_none hu] at hc
        | some u =>
          simp only [lookupUser_some hu, Option.some.injEq] at hc
          subst hc
          exact ⟨p, u, rfl, rfl, hu, by rw [hs]⟩

/-- With an existing place, an existing creator and no rejection, `deletePlace`
succeeds. -/
theorem deletePlace_succeeds (env : Env) (req : Request) (s : Store) (p : PlaceFields)
    (u : UserFields) (hquiet : env.Quiet) (hp : s.places req.params.pid = some p)
    (hu : s.users p.creator = some u) :
    deletePlace env req s =
      (.responded 200 (.message "Deleted place."),
        { places := upd s.places req.params.pid none
          users := upd s.users p.creator
            (some ⟨u.places.filter (fun i => i != req.params.pid)⟩) }) := by
  obtain ⟨h0, h1, h2, h3, h4⟩ := hquiet
  rw [deletePlace_eq_of_found env req s p h0 hp]
  rcases deletePlaceTransaction_cases env s
    { place := { toPlaceFields := p, id := req.params.pid }
      creator := lookupUser s p.creator } with
    ⟨hfail, -⟩ | ⟨-, -, -, -, c, hc, hs⟩
  · simp [Env.StepFails, h1, h2, h3, h4, lookupUser_some hu] at hfail
  · simp only [lookupUser_some hu, Option.some.injEq] at hc
    subst hc
    rw [hs]

/-- With a valid request, an existing creator, an unused id and no rejection,
`createPlace` succeeds. -/
theorem createPlace_succeeds (env : Env) (req : Request) (s : Store) (u : UserFields)
    (hquiet : env.Quiet) (hvalid : req.Valid) (hu : s.users req.body.creator = some u)
    (hnew : s.places env.newId = none) :
    createPlace env req s =
      (.responded 201 (.rawPlace (createdPlaceOf env req)),
        { places := upd s.places env.newId (some (createdPlaceOf env req).toPlaceFields)
          users := upd s.users req.body.creator (some ⟨u.places ++ [env.newId]⟩) }) := by
  obtain ⟨h0, h1, h2, h3, h4⟩ := hquiet
  rw [createPlace_eq_of_found env req s u hvalid h0 hu]
  rcases createPlaceTransaction_cases env s (createdPlaceOf env req)
    { toUserFields := u, id := req.body.creator } with
    ⟨hfail, -⟩ | ⟨-, -, -, -, -, hs⟩
  · have hnew1 : s.places (createdPlaceOf env req).id = none := hnew
    simp [Env.StepFails, h1, h2, h3, h4, hnew1] at hfail
  · rw [hs]
    rfl

/-- Outside a transaction a write issued with the session reaches the committed store
at once, so what makes a failed sequence leave no trace is the active transaction. -/
theorem issue_without_transaction (pending : List Write) (w : Write) (s : Store) :
    Session.issue { inTransaction := false, pending := pending } w s =
      (.ok { inTransaction := false, pending := pending }, w.apply s) := by
  simp [Session.issue]

/-- C3: in `createPlace` (reached with a valid request and an existing creator) and in
`deletePlace` (reached with an existing place), if any step of the transactional
sequence fails (starting the session, saving or removing the place, saving the user
or committing rejects, the insert is refused because the id is taken, or the creator
read for the pull is `null`), the handler forwards an error with status 500 and the
committed store left by the sequence is exactly the store before the call. Whatever
happens, the store after the call is either the store before it or the one with both
writes applied: never only one of the two. -/
theorem transaction_failure_rolls_back (env : Env) (req : Request) (s : Store)
    (hfind : env.findFails = none) :
    (req.Valid → ∀ u, s.users req.body.creator = some u → CreateSequenceFails env s →
        ∃ f, createPlace env req s = (.forwarded ⟨.cause f, 500⟩, s)) ∧
      (∀ p, s.places req.params.pid = some p → DeleteSequenceFails env s p →
        ∃ f, deletePlace env req s = (.forwarded ⟨.cause f, 500⟩, s)) ∧
      ((createPlace env req s).2 = s ∨
        ∃ u, s.users req.body.creator = some u ∧
          (createPlace env req s).2 =
            { places := upd s.places env.newId (some (createdPlaceOf env req).toPlaceFields)
              users := upd s.users req.body.creator (some ⟨u.places ++ [env.newId]⟩) }) ∧
      ((deletePlace env req s).2 = s ∨
        ∃ p u, s.places req.params.pid = some p ∧ s.users p.creator = some u ∧
          (deletePlace env req s).2 =
            { places := upd s.places req.params.pid none
              users := upd s.users p.creator
                (some ⟨u.places.filter (fun i => i != req.params.pid)⟩) }) := by
  refine ⟨?_, ?_, ?_, ?_⟩
  · intro hvalid u hu hfail
    rw [createPlace_eq_of_found env req s u hvalid hfind hu]
    rcases createPlaceTransaction_cases env s (createdPlaceOf env req)
      { toUserFields := u, id := req.body.creator } with
      ⟨-, f, hf⟩ | ⟨h1, h2, h3, h4, hnew, -⟩
    · exact ⟨f, by rw [hf]⟩
    · have hnew1 : s.places env.newId = none := hnew
      simp [CreateSequenceFails, Env.StepFails, h1, h2, h3, h4, hnew1] at hfail
  · intro p hp hfail
    rw [deletePlace_eq_of_found env req s p hfind hp]
    rcases deletePlaceTransaction_cases env s
      { place := { toPlaceFields := p, id := req.params.pid }
        creator := lookupUser s p.creator } with
      ⟨-, f, hf⟩ | ⟨h1, h2, h3, h4, c, hc, -⟩
    · exact ⟨f, by rw [hf]⟩
    · rcases hfail with hstep | hnone
      · simp [Env.StepFails, h1, h2, h3, h4] at hstep
      · simp [lookupUser_none hnone] at hc
  · rcases createPlace_cases env req s with ⟨hs, -⟩ | ⟨u, -, -, hu, -, hs⟩
    · exact Or.inl hs
    · exact Or.inr ⟨u, hu, by rw [hs]⟩
  · rcases deletePlace_cases env req s with ⟨hs, -⟩ | ⟨p, u, -, hp, hu, hs⟩
    · exact Or.inl hs
    · exact Or.inr ⟨p, u, hp, hu, by rw [hs]⟩

/-- Witness for C3: the user save rejects while creating a place for user 1 and while
deleting place 10 of the sample store, and an insert under the taken id 10 is refused. -/
theorem transaction_failure_rolls_back_witness :
    (∃ f, createPlace (Env.userSaveRejects 11) demoRequest demoStore =
        (.forwarded ⟨.cause f, 500⟩, demoStore)) ∧
      (∃ f, deletePlace (Env.userSaveRejects 11) demoRequest demoStore =
        (.forwarded ⟨.cause f, 500⟩, demoStore)) ∧
      (∃ f, createPlace (Env.quiet 10) demoRequest demoStore =
        (.forwarded ⟨.cause f, 500⟩, demoStore)) :=
  ⟨(transaction_failure_rolls_back (Env.userSaveRejects 11) demoRequest demoStore rfl).1
      rfl ⟨[10]⟩ rfl (Or.inl (Or.inr (Or.inr (Or.inl rfl)))),
    (transaction_failure_rolls_back (Env.userSaveRejects 11) demoRequest demoStore rfl).2.1
      demoFields rfl (Or.inl (Or.inr (Or.inr (Or.inl rfl)))),
    (transaction_failure_rolls_back (Env.quiet 10) demoRequest demoStore rfl).1
      rfl ⟨[10]⟩ rfl (Or.inr rfl)⟩

/-! ## Delete, then read -/

/-- C5: for a place stored under the requested id whose creator exists,
`deletePlace` succeeds when nothing rejects, and whenever it responds 200 with
message "Deleted place.", a following `getPlaceById` for the same id whose lookup does
not reject forwards the 404 error with message
"Could not find a place for the provided id.". -/
theorem deletePlace_then_getPlaceById (env env2 : Env) (req req2 : Request) (s : Store)
    (p : PlaceFields) (u : UserFields)
    (hp : s.places req.params.pid = some p) (hu : s.users p.creator = some u)
    (hsame : req2.params.pid = req.params.pid) (hfind2 : env2.findFails = none) :
    (env.Quiet →
        (deletePlace env req s).1 = .responded 200 (.message "Deleted place.")) ∧
      ((deletePlace env req s).1 = .responded 200 (.message "Deleted place.") →
        getPlaceById env2 req2 (deletePlace env req s).2 =
          (.forwarded ⟨.text "Could not find a place for the provided id.", 404⟩,
            (deletePlace env req s).2)) := by
  constructor
  · intro hquiet
    rw [deletePlace_succeeds env req s p u hquiet hp hu]
  · intro hok
    rcases deletePlace_cases env req s with ⟨-, e, he⟩ | ⟨p', u', -, -, -, hdel⟩
    · rw [he] at hok
      cases hok
    · rw [hdel]
      simp [getPlaceById, Place.findById, hfind2, hsame, lookupPlace]

/-- Witness for C5: deleting place 10 of the sample store, then reading it. -/
theorem deletePlace_then_getPlaceById_witness :
    (deletePlace (Env.quiet 11) demoRequest demoStore).1 =
        .responded 200 (.message "Deleted place.") ∧
      getPlaceById (Env.quiet 11) demoRequest
          (deletePlace (Env.quiet 11) demoRequest demoStore).2 =
        (.forwarded ⟨.text "Could not find a place for the provided id.", 404⟩,
          (deletePlace (Env.quiet 11) demoRequest demoStore).2) :=
  ⟨(deletePlace_then_getPlaceById (Env.quiet 11) (Env.quiet 11) demoRequest demoRequest
      demoStore demoFields ⟨[10]⟩ rfl rfl rfl rfl).1 ⟨rfl, rfl, rfl, rfl, rfl⟩,
    (deletePlace_then_getPlaceById (Env.quiet 11) (Env.quiet 11) demoRequest demoRequest
      demoStore demoFields ⟨[10]⟩ rfl rfl rfl rfl).2 rfl⟩

theorem populatePlaces_ids (s : Store) (ids : List Id) :
    ∀ q ∈ populatePlaces s ids, q.id ∈ ids ∧ s.places q.id = some q.toPlaceFields := by
  intro q hq
  simp only [populatePlaces, List.mem_filterMap] at hq
  obtain ⟨i, hi, hq⟩ := hq
  cases hpi : s.places i with
  | none => simp [lookupPlace, hpi] at hq
  | some f =>
    simp only [lookupPlace, hpi, Option.map_some', Option.some.injEq] at hq
    subst hq
    exact ⟨hi, hpi⟩

/-- C6: for a place stored under the requested id with creator U, `deletePlace`
succeeds when nothing rejects, and whenever it responds 200 the stored collection of
U is the old one with every occurrence of the id filtered out (the other entries in
their order), so the id no longer occurs in it; a following `getPlacesByUserId` for U
whose lookup does not reject then either forwards the 404 error or responds 200 with
a list in which no place has that id, and it is the 404 when the id was the only
entry of the collection. -/
theorem deletePlace_then_getPlacesByUserId (env env2 : Env) (req req2 : Request)
    (s : Store) (p : PlaceFields) (u : UserFields)
    (hp : s.places req.params.pid = some p) (hu : s.users p.creator = some u)
    (huid : req2.params.uid = p.creator) (hfind2 : env2.findFails = none) :
    (env.Quiet →
        (deletePlace env req s).1 = .responded 200 (.message "Deleted place.")) ∧
      ((deletePlace env req s).1 = .responded 200 (.message "Deleted place.") →
        (deletePlace env req s).2.users p.creator =
            some ⟨u.places.filter (fun i => i ≠ req.params.pid)⟩ ∧
          req.params.pid ∉ u.places.filter (fun i => i ≠ req.params.pid) ∧
          ((getPlacesByUserId env2 req2 (deletePlace env req s).2).1 =
              .forwarded ⟨.text "Could not find a places for the provided user id.", 404⟩ ∨
            ∃ ps, (getPlacesByUserId env2 req2 (deletePlace env req s).2).1 =
                .responded 200 (.places ps) ∧
              ∀ o ∈ ps, o.id ≠ req.params.pid ∧ o.doc.id ≠ req.params.pid) ∧
          ((∀ i ∈ u.places, i = req.params.pid) →
            (getPlacesByUserId env2 req2 (deletePlace env req s).2).1 =
              .forwarded ⟨.text "Could not find a places for the provided user id.", 404⟩)) := by
  constructor
  · intro hquiet
    rw [deletePlace_succeeds env req s p u hquiet hp hu]
  · intro hok
    rcases deletePlace_cases env req s with ⟨-, e, he⟩ | ⟨p', u', -, hp', hu', hdel⟩
    · rw [he] at hok
      cases hok
    · rw [hp] at hp'
      cases hp'
      rw [hu] at hu'
      cases hu'
      rw [hdel]
      have hfilter : u.places.filter (fun i => i != req.params.pid) =
          u.places.filter (fun i => i ≠ req.params.pid) := by
        congr 1
        funext i
        by_cases h : i = req.params.pid <;> simp [h]
      have hnot : req.params.pid ∉ u.places.filter (fun i => i ≠ req.params.pid) := by
        simp [List.mem_filter]
      rw [getPlacesByUserId_eq _ _ _ hfind2]
      simp only [huid, upd_same, hfilter]
      refine ⟨trivial, hnot, ?_, ?_⟩
      · split
        · left; rfl
        · right
          refine ⟨_, rfl, ?_⟩
          intro o ho
          simp only [List.mem_map] at ho
          obtain ⟨q, hq, rfl⟩ := ho
          have := (populatePlaces_ids _ _ q hq).1
          have hne : q.id ≠ req.params.pid := by
            intro h
            rw [h] at this
            exact hnot this
          exact ⟨hne, hne⟩
      · intro hall
        have hempty : u.places.filter (fun i => i ≠ req.params.pid) = [] := by
          simp only [List.filter_eq_nil_iff]
          intro i hi
          simp [hall i hi]
        rw [hempty]
        simp [populatePlaces]

/-- Witness for C6: place 10 is the only place of user 1 in the sample store; after
deleting it, listing the places of user 1 is a 404. -/
theorem deletePlace_then_getPlacesByUserId_witness :
    (deletePlace (Env.quiet 11) demoRequest demoStore).1 =
        .responded 200 (.message "Deleted place.") ∧
      (getPlacesByUserId (Env.quiet 11) demoRequest
          (deletePlace (Env.quiet 11) demoRequest demoStore).2).1 =
        .forwarded ⟨.text "Could not find a places for the provided user id.", 404⟩ :=
  ⟨(deletePlace_then_getPlacesByUserId (Env.quiet 11) (Env.quiet 11) demoRequest demoRequest
      demoStore demoFields ⟨[10]⟩ rfl rfl rfl rfl).1 ⟨rfl, rfl, rfl, rfl, rfl⟩,
    ((deletePlace_then_getPlacesByUserId (Env.quiet 11) (Env.quiet 11) demoRequest demoRequest
      demoStore demoFields ⟨[10]⟩ rfl rfl rfl rfl).2 rfl).2.2.2 (by decide)⟩

/-! ## Update -/

/-- C7: for a valid request and a place stored under the requested id, `updatePlace`
responds 200 when nothing rejects, and whenever it responds, the place stored under
that id afterwards has the title and description of the request and the id, address,
location, image and creator it had before; every other place and every user is
unchanged. -/
theorem updatePlace_frame (env : Env) (req : Request) (s : Store) (p : PlaceFields)
    (hvalid : req.Valid) (hp : s.places req.params.pid = some p) :
    (env.findFails = none → env.placeWriteFails = none →
        ∃ body, (updatePlace env req s).1 = .responded 200 body) ∧
      (∀ status body, (updatePlace env req s).1 = .responded status body →
        status = 200 ∧
        (∃ q : Place, lookupPlace (updatePlace env req s).2 req.params.pid = some q ∧
          body = .place q.toObject ∧
          q.title = req.body.title ∧ q.description = req.body.description ∧
          q.id = req.params.pid ∧ q.address = p.address ∧ q.location = p.location ∧
          q.image = p.image ∧ q.creator = p.creator) ∧
        (∀ k, k ≠ req.params.pid →
          (updatePlace env req s).2.places k = s.places k) ∧
        (updatePlace env req s).2.users = s.users) := by
  have hv : req.validationErrors = [] := hvalid
  cases hfind : env.findFails with
  | some d => simp [updatePlace, hv, Place.findById, hfind]
  | none =>
    cases hsave : env.placeWriteFails with
    | some d => simp [updatePlace, hv, Place.findById, hfind, lookupPlace_some hp, Place.save, hsave]
    | none =>
      simp only [updatePlace, hv, Place.findById, hfind, lookupPlace_some hp, Place.save, hsave,
        Write.apply, attempt_none, List.isEmpty_nil, Bool.not_true, Bool.false_eq_true, if_false]
      refine ⟨fun _ _ => ⟨_, rfl⟩, ?_⟩
      intro status body h
      simp only [Outcome.responded.injEq] at h
      obtain ⟨rfl, rfl⟩ := h
      refine ⟨rfl, ⟨_, lookupPlace_some (upd_same _ _ _), ?_⟩, ?_, ?_⟩
      · exact ⟨rfl, rfl, rfl, rfl, rfl, rfl, rfl, rfl⟩
      · intro k hk
        simp [upd, hk]
      · trivial

/-- Witness for C7: retitling place 10 of the sample store. -/
theorem updatePlace_frame_witness :
    ∃ body, (updatePlace (Env.quiet 11) demoRequest demoStore).1 = .responded 200 body :=
  (updatePlace_frame (Env.quiet 11) demoRequest demoStore demoFields rfl rfl).1 rfl rfl

/-! ## Preservation of the consistency predicate -/

theorem getPlaceById_store (env : Env) (req : Request) (s : Store) :
    (getPlaceById env req s).2 = s := by
  unfold getPlaceById
  dsimp only
  split <;> rfl

theorem getPlacesByUserId_store (env : Env) (req : Request) (s : Store) :
    (getPlacesByUserId env req s).2 = s := by
  unfold getPlacesByUserId
  dsimp only
  split
  · rfl
  · rfl
  · split <;> rfl

/-- Every run of `updatePlace` either leaves the store as it was, or rewrites the
title and description of the place stored under the requested id. -/
theorem updatePlace_cases (env : Env) (req : Request) (s : Store) :
    (updatePlace env req s).2 = s ∨
      ∃ p, s.places req.params.pid = some p ∧
        (updatePlace env req s).2 =
          { places := upd s.places req.params.pid
              (some { title := req.body.title, description := req.body.description,
                      image := p.image, address := p.address, location := p.location,
                      creator := p.creator })
            users := s.users } := by
  by_cases hv : req.validationErrors = []
  · cases hfind : env.findFails with
    | some d => left; simp [updatePlace, hv, Place.findById, hfind]
    | none =>
      cases hp : s.places req.params.pid with
      | none => left; simp [updatePlace, hv, Place.findById, hfind, lookupPlace_none hp]
      | some p =>
        cases hsave : env.placeWriteFails with
        | some d =>
          left
          simp [updatePlace, hv, Place.findById, hfind, lookupPlace_some hp, Place.save, hsave]
        | none =>
          right
          refine ⟨p, rfl, ?_⟩
          simp [updatePlace, hv, Place.findById, hfind, lookupPlace_some hp, Place.save, hsave,
            Write.apply]
  · left; simp [updatePlace, hv]

theorem consistent_after_create (s : Store) (nid c : Id) (f : PlaceFields) (u : UserFields)
    (hcons : Consistent s) (hfresh : Fresh s nid) (hu : s.users c = some u)
    (hf : f.creator = c) :
    Consistent { places := upd s.places nid (some f)
                 users := upd s.users c (some ⟨u.places ++ [nid]⟩) } := by
  intro uid u1 pid p1 hu1 hp1
  have hnot : nid ∉ u.places := hfresh.2 c u hu
  by_cases hpid : pid = nid
  · subst hpid
    simp only [upd_same, Option.some.injEq] at hp1
    subst hp1
    by_cases huid : uid = c
    · subst huid
      simp only [upd_same, Option.some.injEq] at hu1
      subst hu1
      simp [hf, List.count_append, List.count_eq_zero_of_not_mem hnot]
    · simp only [upd_other _ _ _ _ huid] at hu1
      have hnot1 : pid ∉ u1.places := hfresh.2 uid u1 hu1
      simp [hf, hnot1, Ne.symm huid]
  · simp only [upd_other _ _ _ _ hpid] at hp1
    by_cases huid : uid = c
    · subst huid
      simp only [upd_same, Option.some.injEq] at hu1
      subst hu1
      have h := hcons uid u pid p1 hu hp1
      have hne : ¬ nid = pid := fun h => hpid h.symm
      simp only [List.mem_append, List.mem_singleton, hpid, or_false, List.count_append,
        List.count_singleton, beq_iff_eq, hne, if_false, Nat.add_zero]
      exact h
    · simp only [upd_other _ _ _ _ huid] at hu1
      exact hcons uid u1 pid p1 hu1 hp1

theorem consistent_after_delete (s : Store) (pid c : Id) (u : UserFields)
    (hcons : Consistent s) (hu : s.users c = some u) :
    Consistent { places := upd s.places pid none
                 users := upd s.users c (some ⟨u.places.filter (fun i => i != pid)⟩) } := by
  intro uid u1 k p1 hu1 hp1
  by_cases hk : k = pid
  · subst hk
    simp at hp1
  · simp only [upd_other _ _ _ _ hk] at hp1
    by_cases huid : uid = c
    · subst huid
      simp only [upd_same, Option.some.injEq] at hu1
      subst hu1
      have h := hcons uid u k p1 hu hp1
      have hkeep : (k != pid) = true := by simp [hk]
      have hc : List.count k (List.filter (fun i => i != pid) u.places) =
          List.count k u.places := List.count_filter hkeep
      simp only [List.mem_filter, hkeep, and_true, hc]
      exact h
    · simp only [upd_other _ _ _ _ huid] at hu1
      exact hcons uid u1 k p1 hu1 hp1

theorem consistent_after_update (s : Store) (pid : Id) (p f : PlaceFields)
    (hcons : Consistent s) (hp : s.places pid = some p) (hf : f.creator = p.creator) :
    Consistent { places := upd s.places pid (some f), users := s.users } := by
  intro uid u1 k p1 hu1 hp1
  by_cases hk : k = pid
  · subst hk
    simp only [upd_same, Option.some.injEq] at hp1
    subst hp1
    rw [hf]
    exact hcons uid u1 k p hu1 hp
  · simp only [upd_other _ _ _ _ hk] at hp1
    exact hcons uid u1 k p1 hu1 hp1

/-- C1: the consistency predicate (a user is the creator of a place exactly when the
id of the place occurs in the collection of the user, and then exactly once) is
preserved by each of the five handlers, for every request and every environment,
whatever the outcome; for `createPlace` the id generated for the new place is assumed
to occur nowhere in the store. -/
theorem consistent_preserved (h : Handler) (env : Env) (req : Request) (s : Store)
    (hcons : Consistent s) (hfresh : h = .createPlace → Fresh s env.newId) :
    Consistent (h.run env req s).2 := by
  cases h with
  | getPlaceById => simpa [Handler.run, getPlaceById_store] using hcons
  | getPlacesByUserId => simpa [Handler.run, getPlacesByUserId_store] using hcons
  | createPlace =>
    show Consistent (createPlace env req s).2
    rcases createPlace_cases env req s with ⟨hs, -⟩ | ⟨u, -, -, hu, -, hs⟩
    · rw [hs]; exact hcons
    · rw [hs]
      exact consistent_after_create s env.newId req.body.creator _ u hcons (hfresh rfl) hu rfl
  | updatePlace =>
    show Consistent (updatePlace env req s).2
    rcases updatePlace_cases env req s with hs | ⟨p, hp, hs⟩
    · rw [hs]; exact hcons
    · rw [hs]
      exact consistent_after_update s req.params.pid p _ hcons hp rfl
  | deletePlace =>
    show Consistent (deletePlace env req s).2
    rcases deletePlace_cases env req s with ⟨hs, -⟩ | ⟨p, u, -, -, hu, hs⟩
    · rw [hs]; exact hcons
    · rw [hs]
      exact consistent_after_delete s req.params.pid p.creator u hcons hu

theorem demoStore_consistent : Consistent demoStore := by
  intro uid u pid p hu hp
  have hpid : pid = 10 := by
    by_contra h
    simp [demoStore, upd, noDocs, h] at hp
  subst hpid
  have hp1 : p = demoFields := by
    simpa [demoStore, upd, noDocs, eq_comm] using hp
  subst hp1
  by_cases h1 : uid = 1
  · subst h1
    have : u = ⟨[10]⟩ := by simpa [demoStore, upd, noDocs, eq_comm] using hu
    subst this
    simp [demoFields]
  · by_cases h2 : uid = 2
    · subst h2
      have : u = ⟨[]⟩ := by simpa [demoStore, upd, noDocs, eq_comm] using hu
      subst this
      simp [demoFields]
    · simp [demoStore, upd, noDocs, h1, h2] at hu

theorem demoStore_fresh : Fresh demoStore 11 := by
  refine ⟨rfl, ?_⟩
  intro uid u hu
  by_cases h1 : uid = 1
  · subst h1
    have : u = ⟨[10]⟩ := by simpa [demoStore, upd, noDocs, eq_comm] using hu
    subst this
    simp
  · by_cases h2 : uid = 2
    · subst h2
      have : u = ⟨[]⟩ := by simpa [demoStore, upd, noDocs, eq_comm] using hu
      subst this
      simp
    · simp [demoStore, upd, noDocs, h1, h2] at hu

/-- Witness for C1: creating a second place for user 1 of the sample store, with the
unused id 11, keeps the store consistent. -/
theorem consistent_preserved_witness :
    Consistent (Handler.run .createPlace (Env.quiet 11) demoRequest demoStore).2 :=
  consistent_preserved .createPlace (Env.quiet 11) demoRequest demoStore
    demoStore_consistent (fun _ => demoStore_fresh)

/-! ## Create, then read -/

theorem populatePlaces_congr (s s' : Store) (ids : List Id)
    (h : ∀ i ∈ ids, s'.places i = s.places i) :
    populatePlaces s' ids = populatePlaces s ids := by
  induction ids with
  | nil => rfl
  | cons i rest ih =>
    have hi : lookupPlace s' i = lookupPlace s i := by
      simp [lookupPlace, h i (List.mem_cons_self _ _)]
    have hrest := ih (fun j hj => h j (List.mem_cons_of_mem _ hj))
    simp only [populatePlaces] at hrest ⊢
    simp only [List.filterMap_cons, hi, hrest]

theorem populatePlaces_append (s : Store) (xs ys : List Id) :
    populatePlaces s (xs ++ ys) = populatePlaces s xs ++ populatePlaces s ys := by
  simp [populatePlaces, List.filterMap_append]

/-- C4: for a consistent store, a valid request whose creator is an existing user and
a generated id that occurs nowhere in the store, `createPlace` responds 201 when
nothing rejects, and whenever it responds 201 a following `getPlacesByUserId` for the
creator whose lookup does not reject responds 200 with the places the creator owned
before, in their previous order, followed by the created place, which occurs exactly
once in the list. -/
theorem createPlace_then_getPlacesByUserId (env env2 : Env) (req req2 : Request)
    (s : Store) (u : UserFields)
    (hcons : Consistent s) (hfresh : Fresh s env.newId) (hvalid : req.Valid)
    (hu : s.users req.body.creator = some u)
    (huid : req2.params.uid = req.body.creator) (hfind2 : env2.findFails = none) :
    (env.Quiet →
        (createPlace env req s).1 = .responded 201 (.rawPlace (createdPlaceOf env req))) ∧
      (∀ body, (createPlace env req s).1 = .responded 201 body →
        body = .rawPlace (createdPlaceOf env req) ∧
        getPlacesByUserId env2 req2 (createPlace env req s).2 =
          (.responded 200 (.places
              ((populatePlaces s u.places ++ [createdPlaceOf env req]).map Place.toObject)),
            (createPlace env req s).2) ∧
        ((populatePlaces s u.places ++ [createdPlaceOf env req]).map Place.toObject).count
            (createdPlaceOf env req).toObject = 1 ∧
        (∀ q, q ∈ populatePlaces s u.places ↔
          (s.places q.id = some q.toPlaceFields ∧ q.creator = req.body.creator))) := by
  have hnot : env.newId ∉ u.places := hfresh.2 _ u hu
  constructor
  · intro hquiet
    rw [createPlace_succeeds env req s u hquiet hvalid hu hfresh.1]
  · intro body hok
    rcases createPlace_cases env req s with ⟨-, hno⟩ | ⟨u1, -, -, hu1, -, hs⟩
    · exact absurd hok (hno 201 body)
    · rw [hu] at hu1
      cases hu1
      rw [hs] at hok ⊢
      simp only [Outcome.responded.injEq, true_and] at hok
      have hold : populatePlaces
          { places := upd s.places env.newId (some (createdPlaceOf env req).toPlaceFields)
            users := upd s.users req.body.creator (some ⟨u.places ++ [env.newId]⟩) }
          u.places = populatePlaces s u.places := by
        apply populatePlaces_congr
        intro i hi
        have : i ≠ env.newId := fun h => hnot (h ▸ hi)
        simp [upd, this]
      have hnew : populatePlaces
          { places := upd s.places env.newId (some (createdPlaceOf env req).toPlaceFields)
            users := upd s.users req.body.creator (some ⟨u.places ++ [env.newId]⟩) }
          [env.newId] = [createdPlaceOf env req] := by
        simp [populatePlaces, lookupPlace, createdPlaceOf]
      have hmem : ∀ q, q ∈ populatePlaces s u.places ↔
          (s.places q.id = some q.toPlaceFields ∧ q.creator = req.body.creator) := by
        intro q
        constructor
        · intro hq
          obtain ⟨h1, h2⟩ := populatePlaces_ids s u.places q hq
          exact ⟨h2, ((hcons _ u q.id q.toPlaceFields hu h2).1).2 h1⟩
        · rintro ⟨h2, h3⟩
          have h1 : q.id ∈ u.places := ((hcons _ u q.id q.toPlaceFields hu h2).1).1 h3
          simp only [populatePlaces, List.mem_filterMap]
          exact ⟨q.id, h1, by simp [lookupPlace, h2]⟩
      refine ⟨hok.symm, ?_, ?_, hmem⟩
      · rw [getPlacesByUserId_eq _ _ _ hfind2]
        simp only [huid, upd_same, populatePlaces_append, hold, hnew]
        simp
      · have hzero : ((populatePlaces s u.places).map Place.toObject).count
            (createdPlaceOf env req).toObject = 0 := by
          apply List.count_eq_zero_of_not_mem
          intro hin
          simp only [List.mem_map] at hin
          obtain ⟨q, hq, hqe⟩ := hin
          have hid : q.id = env.newId := by
            have := congrArg PlaceObject.id hqe
            simpa [Place.toObject, createdPlaceOf] using this
          exact hnot (hid ▸ (populatePlaces_ids s u.places q hq).1)
        rw [List.map_append, List.count_append, hzero]
        simp

/-- Witness for C4: user 1 of the sample store owns place 10; after creating a place
with the unused id 11, the list is place 10 followed by the created place. -/
theorem createPlace_then_getPlacesByUserId_witness :
    (createPlace (Env.quiet 11) demoRequest demoStore).1 =
        .responded 201 (.rawPlace (createdPlaceOf (Env.quiet 11) demoRequest)) ∧
      getPlacesByUserId (Env.quiet 11) demoRequest
          (createPlace (Env.quiet 11) demoRequest demoStore).2 =
        (.responded 200 (.places
            ((populatePlaces demoStore [10] ++
              [createdPlaceOf (Env.quiet 11) demoRequest]).map Place.toObject)),
          (createPlace (Env.quiet 11) demoRequest demoStore).2) :=
  have key := createPlace_then_getPlacesByUserId (Env.quiet 11) (Env.quiet 11) demoRequest
    demoRequest demoStore ⟨[10]⟩ demoStore_consistent demoStore_fresh rfl rfl rfl rfl
  ⟨key.1 ⟨rfl, rfl, rfl, rfl, rfl⟩, (key.2 _ (key.1 ⟨rfl, rfl, rfl, rfl, rfl⟩)).2.1⟩

end Places
